import Mathlib

/-!
Verification of the RusticSoup HTML extraction core.

We shallowly embed the four source modules (`universal_extractor.rs`,
`bulk_parser.rs`, `encoding.rs`, `lib.rs`) in Lean.  The underlying DOM
and selector-matching library (the `scraper` crate) is an external
collaborator assumed correct, so documents are modelled directly as
parsed trees and `Selector::parse` is modelled by a parser for the CSS
subset the library accepts (tag, `.class`, `#id`, `[attr="value"]`
compounds and comma-separated alternation), which covers every selector
the repository itself constructs.  Python-level marshaling (PyDict /
PyList construction) is outside the core per the spec, so records are
modelled as association lists in insertion order.
-/

namespace RusticSoup

/-- Error kinds observable at the repository's boundary: `valueError`
models `pyo3::exceptions::PyValueError`, `selectorError` and
`encodingError` model the exception classes exposed by `lib.rs`. -/
inductive PyErr where
  | valueError (msg : String)
  | selectorError (msg : String)
  | encodingError (msg : String)
deriving DecidableEq, Repr

/-- DOM node: an element with a tag, attributes and children, or a text
node.  Documents are forests `List Node`. -/
inductive Node where
  | elem (tag : String) (attrs : List (String × String)) (children : List Node)
  | text (s : String)
deriving Repr

/-- First value bound to an attribute name, like `Element::attr`. -/
def getAttr (attrs : List (String × String)) (name : String) : Option String :=
  (attrs.find? (fun p => p.1 == name)).map (fun p => p.2)

def Node.attr (n : Node) (name : String) : Option String :=
  match n with
  | .elem _ attrs _ => getAttr attrs name
  | .text _ => none

mutual
/-- All element nodes of a tree in document (DFS pre-)order, the node
itself included: the order in which `scraper`'s `select` visits. -/
def nodeElems : Node → List Node
  | .text _ => []
  | .elem t a cs => .elem t a cs :: forestElems cs

def forestElems : List Node → List Node
  | [] => []
  | n :: ns => nodeElems n ++ forestElems ns
end

mutual
/-- Contents of all text nodes below a node, in document order: what
`ElementRef::text` iterates. -/
def nodeTexts : Node → List String
  | .text s => [s]
  | .elem _ _ cs => forestTexts cs

def forestTexts : List Node → List String
  | [] => []
  | n :: ns => nodeTexts n ++ forestTexts ns
end

/-- One compound CSS selector: optional tag name, optional id, required
classes, required attribute/value equalities. -/
structure SimpleSel where
  tag : Option String
  id : Option String
  classes : List String
  attrsEq : List (String × String)
deriving DecidableEq, Repr

/-- A compiled selector: comma-separated alternation of compounds. -/
abbrev Sel := List SimpleSel

def isWs (c : Char) : Bool := c.isWhitespace

/-- Split a whitespace-separated token list (for the `class` attribute). -/
def wsTokens : List Char → List Char → List String
  | acc, [] => if acc = [] then [] else [String.mk acc.reverse]
  | acc, c :: rest =>
    if isWs c then
      if acc = [] then wsTokens [] rest
      else String.mk acc.reverse :: wsTokens [] rest
    else wsTokens (c :: acc) rest

def classTokens (s : String) : List String := wsTokens [] s.toList

def matchesSimple (n : Node) (s : SimpleSel) : Bool :=
  match n with
  | .text _ => false
  | .elem t attrs _ =>
    (match s.tag with | none => true | some tg => tg == t) &&
    (match s.id with | none => true | some i => getAttr attrs "id" == some i) &&
    s.classes.all (fun c => (classTokens ((getAttr attrs "class").getD "")).contains c) &&
    s.attrsEq.all (fun p => getAttr attrs p.1 == some p.2)

def matchesSel (n : Node) (sel : Sel) : Bool := sel.any (matchesSimple n)

/-- `Html::select`: all matching elements of the forest in document order. -/
def selectNodes (f : List Node) (sel : Sel) : List Node :=
  (forestElems f).filter (fun n => matchesSel n sel)

/- ## The CSS selector parser (model of `scraper::Selector::parse`) -/

def isIdentChar (c : Char) : Bool := c.isAlphanum || c = '-' || c = '_'

def takeIdent : List Char → List Char × List Char
  | [] => ([], [])
  | c :: rest =>
    if isIdentChar c then
      let p := takeIdent rest
      (c :: p.1, p.2)
    else ([], c :: rest)

def takeAttrVal : List Char → List Char × List Char
  | [] => ([], [])
  | c :: rest =>
    if c = '"' then ([], c :: rest)
    else
      let p := takeAttrVal rest
      (c :: p.1, p.2)

/-- Fuel-driven loop over the `.class` / `#id` / `[attr="v"]` parts of a
compound selector; fuel `input.length + 1` always suffices. -/
def parseParts : Nat → List Char → SimpleSel → Option SimpleSel
  | 0, _, _ => none
  | _ + 1, [], acc => some acc
  | fuel + 1, '.' :: rest, acc =>
    let p := takeIdent rest
    if p.1 = [] then none
    else parseParts fuel p.2
      { acc with classes := acc.classes ++ [String.mk p.1] }
  | fuel + 1, '#' :: rest, acc =>
    let p := takeIdent rest
    if p.1 = [] then none
    else match acc.id with
      | some _ => none
      | none => parseParts fuel p.2 { acc with id := some (String.mk p.1) }
  | fuel + 1, '[' :: rest, acc =>
    let p := takeIdent rest
    if p.1 = [] then none
    else match p.2 with
      | '=' :: '"' :: rest2 =>
        let v := takeAttrVal rest2
        (match v.2 with
         | '"' :: ']' :: rest3 =>
           parseParts fuel rest3
             { acc with attrsEq := acc.attrsEq ++ [(String.mk p.1, String.mk v.1)] }
         | _ => none)
      | _ => none
  | _ + 1, _, _ => none

def parseCompound (cs : List Char) : Option SimpleSel :=
  if cs = [] then none
  else
    let p := takeIdent cs
    let tag0 : Option String := if p.1 = [] then none else some (String.mk p.1)
    parseParts (p.2.length + 1) p.2 { tag := tag0, id := none, classes := [], attrsEq := [] }

/-- Split a char list at every occurrence of `c` (like Rust `str::split`). -/
def splitOnChar (c : Char) : List Char → List (List Char)
  | [] => [[]]
  | x :: xs =>
    if x = c then [] :: splitOnChar c xs
    else
      match splitOnChar c xs with
      | [] => [[x]]
      | g :: gs => (x :: g) :: gs

def trimChars (l : List Char) : List Char :=
  ((l.dropWhile isWs).reverse.dropWhile isWs).reverse

/-- Model of `Selector::parse`: comma-separated compounds, each trimmed;
returns `none` on anything outside the supported grammar (in particular
on the empty string). -/
def cssParse (s : String) : Option Sel :=
  ((splitOnChar ',' s.toList).map trimChars).mapM parseCompound

/- ## String helpers (models of Rust `str` operations, kept as plain
structural recursions over `List Char` so the kernel can evaluate them) -/

/-- Rust `str::trim`. -/
def strTrim (s : String) : String := String.mk (trimChars s.toList)

/-- Rust `[&str]::join(sep)`. -/
def joinWith (sep : List Char) : List (List Char) → List Char
  | [] => []
  | [x] => x
  | x :: y :: xs => x ++ sep ++ joinWith sep (y :: xs)

def joinTexts (sep : String) (xs : List String) : String :=
  String.mk (joinWith sep.toList (xs.map String.toList))

/-- Fuel-driven body of `str::replace` (replace every occurrence);
fuel `l.length + 1` suffices since every step consumes a character. -/
def replaceGo (pat rep : List Char) : Nat → List Char → List Char
  | 0, l => l
  | fuel + 1, l =>
    match l with
    | [] => []
    | c :: rest =>
      if pat.isPrefixOf l then rep ++ replaceGo pat rep fuel (l.drop pat.length)
      else c :: replaceGo pat rep fuel rest

/-- Rust `str::replace` (nonempty pattern; ours always is). -/
def strReplace (s pat rep : String) : String :=
  if pat.toList = [] then s
  else String.mk (replaceGo pat.toList rep.toList (s.toList.length + 1) s.toList)

/-- Rust `str::starts_with`. -/
def strStartsWith (s p : String) : Bool := p.toList.isPrefixOf s.toList

/- ## `universal_extractor.rs` -/

/-- One extracted record: field name to string value, in the iteration
order of the compiled-selector map. -/
abbrev Rec := List (String × String)

/-- `parse_selector_spec`: `sel@attr` splits at a single `@`; no `@`
means text extraction; more than one `@` is unparseable (`none`). -/
def parse_selector_spec (spec : String) : Option (String × Option String) :=
  if '@' ∈ spec.toList then
    match splitOnChar '@' spec.toList with
    | [a, b] => some (String.mk a, some (String.mk b))
    | _ => none
  else some (spec, none)

/-- Full compilation of one field spec: the grammar split followed by
CSS compilation of the selector half. -/
def specSel (sp : String) : Option (Sel × Option String) :=
  match parse_selector_spec sp with
  | none => none
  | some (s, a) =>
    match cssParse s with
    | none => none
    | some sel => some (sel, a)

/-- Field resolution inside one container: the container subtree is
re-rooted as a fragment (`Html::parse_fragment(&container.html())`) and
the field selector takes the first match in it; an absent match, or an
absent attribute, yields the empty string. -/
def extractValue (container : Node) (sel : Sel) (attr : Option String) : String :=
  match (selectNodes [container] sel).head? with
  | none => ""
  | some el =>
    match attr with
    | some a => (el.attr a).getD ""
    | none => strTrim (joinTexts " " (nodeTexts el))

/-- The selector pre-compilation loop of `extract_data`: an unparseable
spec (more than one `@`) is skipped silently, an invalid CSS selector
aborts with the `PyValueError` the source formats. -/
def compileFields : List (String × String) → Except PyErr (List (String × Sel × Option String))
  | [] => .ok []
  | (name, spec) :: rest =>
    match parse_selector_spec spec with
    | none => compileFields rest
    | some (s, a) =>
      match cssParse s with
      | none => .error (.valueError ("Invalid selector '" ++ s ++ "' for field '" ++ name ++ "'"))
      | some sel =>
        match compileFields rest with
        | .error e => .error e
        | .ok l => .ok ((name, sel, a) :: l)

/-- `extract_data`: the public single-document entry point. -/
def extract_data (doc : List Node) (container_selector : String)
    (field_mappings : List (String × String)) : Except PyErr (List Rec) :=
  match cssParse container_selector with
  | none => .error (.valueError ("Invalid container selector: " ++ container_selector))
  | some csel =>
    match compileFields field_mappings with
    | .error e => .error e
    | .ok compiled =>
      .ok ((selectNodes doc csel).map
        (fun c => compiled.map (fun f => (f.1, extractValue c f.2.1 f.2.2))))

/-- The selector pre-compilation loop of `extract_single_page`: both an
unparseable spec and an invalid CSS selector are skipped silently. -/
def compileFieldsSilent : List (String × String) → List (String × Sel × Option String)
  | [] => []
  | (name, spec) :: rest =>
    match parse_selector_spec spec with
    | none => compileFieldsSilent rest
    | some (s, a) =>
      match cssParse s with
      | none => compileFieldsSilent rest
      | some sel => (name, sel, a) :: compileFieldsSilent rest

/-- `extract_single_page`: the internal per-document function of the
bulk path; an invalid container selector yields an empty result. -/
def extract_single_page (doc : List Node) (container_selector : String)
    (field_mappings : List (String × String)) : List Rec :=
  match cssParse container_selector with
  | none => []
  | some csel =>
    (selectNodes doc csel).map
      (fun c => (compileFieldsSilent field_mappings).map
        (fun f => (f.1, extractValue c f.2.1 f.2.2)))

/-- `extract_data_bulk`: `par_iter().map(...).collect()` preserves input
order, so the parallel fan-out is the order-preserving `map`. -/
def extract_data_bulk (html_pages : List (List Node)) (container_selector : String)
    (field_mappings : List (String × String)) : List (List Rec) :=
  html_pages.map (fun p => extract_single_page p container_selector field_mappings)

/-- Decidable equality on `Except`, for evaluating our extractors at
concrete inputs. -/
instance instDecEqExcept {ε α : Type} [DecidableEq ε] [DecidableEq α] :
    DecidableEq (Except ε α) := fun x y =>
  match x, y with
  | .ok a, .ok b =>
    if h : a = b then .isTrue (by rw [h]) else .isFalse (fun hh => h (Except.ok.inj hh))
  | .error a, .error b =>
    if h : a = b then .isTrue (by rw [h]) else .isFalse (fun hh => h (Except.error.inj hh))
  | .ok _, .error _ => .isFalse (fun hh => Except.noConfusion hh)
  | .error _, .ok _ => .isFalse (fun hh => Except.noConfusion hh)

/- ## `bulk_parser.rs` -/

/-- The compiled sentinel selector `#sh-osd__online-sellers-cont`. -/
def sentinelSel : Sel :=
  [{ tag := none, id := some "sh-osd__online-sellers-cont", classes := [], attrsEq := [] }]

/-- The compiled row selector `tr[data-is-grid-offer="true"]`. -/
def rowSel : Sel :=
  [{ tag := some "tr", id := none, classes := [], attrsEq := [("data-is-grid-offer", "true")] }]

/-- `extract_seller_name`: first `a.b5ycib` in the row, its text joined
with `""`, the accessibility string removed, then trimmed. -/
def extract_seller_name (row : Node) : String :=
  match cssParse "a.b5ycib" with
  | none => ""
  | some sel =>
    match (selectNodes [row] sel).head? with
    | some sellerLink =>
      strTrim (strReplace (joinTexts "" (nodeTexts sellerLink)) "Opens in a new window" "")
    | none => ""

/-- `extract_price`: first `span.g9WBQb` in the row, text trimmed. -/
def extract_price (row : Node) : String :=
  match cssParse "span.g9WBQb" with
  | none => ""
  | some sel =>
    match (selectNodes [row] sel).head? with
    | some priceElem => strTrim (joinTexts "" (nodeTexts priceElem))
    | none => ""

/-- `extract_shipping`: first `div.drzWO` in the row, text trimmed. -/
def extract_shipping (row : Node) : String :=
  match cssParse "div.drzWO" with
  | none => ""
  | some sel =>
    match (selectNodes [row] sel).head? with
    | some shippingElem => strTrim (joinTexts "" (nodeTexts shippingElem))
    | none => ""

/-- `extract_link`: `href` of the first `a.UxuaJe`; a relative
`/url?q=` redirect is made absolute against the fixed origin. -/
def extract_link (row : Node) : String :=
  match cssParse "a.UxuaJe" with
  | none => ""
  | some sel =>
    match (selectNodes [row] sel).head? with
    | some linkElem =>
      match linkElem.attr "href" with
      | some href =>
        if strStartsWith href "/url?q=" then "https://www.google.com" ++ href else href
      | none => ""
    | none => ""

/-- `parse_single_ad`: the four field extractions (each total: an absent
match yields `""`), the derived `type` tag, and the record in the
insertion order of the source's dict.  The Rust function returns
`PyResult` only because Python dict construction is fallible; the
extraction logic itself cannot fail. -/
def parse_single_ad (row : Node) : Rec :=
  let seller_name := extract_seller_name row
  let offer_price := extract_price row
  let total_price := extract_shipping row
  let link := extract_link row
  let ad_type := if total_price = "" then "Local" else "Online"
  [("seller_name", seller_name), ("offer_price", offer_price),
   ("total_price", total_price), ("link", link), ("type", ad_type)]

/-- `parse_google_page_internal`: empty result when the sentinel
container is absent; otherwise one record per row matching the row
predicate anywhere in the document, in document order. -/
def parse_google_page_internal (doc : List Node) : List Rec :=
  match cssParse "#sh-osd__online-sellers-cont" with
  | none => []
  | some containerSelector =>
    if (selectNodes doc containerSelector).head?.isNone then []
    else
      match cssParse "tr[data-is-grid-offer=\"true\"]" with
      | none => []
      | some rowSelector => (selectNodes doc rowSelector).map parse_single_ad

/-- `bulk_parse_google_shopping`: order-preserving parallel map. -/
def bulk_parse_google_shopping (html_pages : List (List Node)) : List (List Rec) :=
  html_pages.map parse_google_page_internal

/- ## `encoding.rs` -/

/-- A UTF-8 continuation byte. -/
def contB (b : Nat) : Bool := decide (0x80 ≤ b) && decide (b ≤ 0xBF)

/-- Model of `std::str::from_utf8`'s validation: `none` when the bytes
are valid UTF-8, otherwise the index of the first invalid sequence
(the `valid_up_to` of the `Utf8Error` diagnostic). -/
def utf8ErrAt : Nat → List Nat → Option Nat
  | _, [] => none
  | i, b :: rest =>
    if b < 0x80 then utf8ErrAt (i + 1) rest
    else if 0xC2 ≤ b ∧ b ≤ 0xDF then
      match rest with
      | b1 :: rest1 => if contB b1 then utf8ErrAt (i + 2) rest1 else some i
      | [] => some i
    else if b = 0xE0 then
      match rest with
      | b1 :: b2 :: rest2 =>
        if decide (0xA0 ≤ b1) && decide (b1 ≤ 0xBF) && contB b2 then utf8ErrAt (i + 3) rest2
        else some i
      | _ => some i
    else if (0xE1 ≤ b ∧ b ≤ 0xEC) ∨ b = 0xEE ∨ b = 0xEF then
      match rest with
      | b1 :: b2 :: rest2 =>
        if contB b1 && contB b2 then utf8ErrAt (i + 3) rest2 else some i
      | _ => some i
    else if b = 0xED then
      match rest with
      | b1 :: b2 :: rest2 =>
        if decide (0x80 ≤ b1) && decide (b1 ≤ 0x9F) && contB b2 then utf8ErrAt (i + 3) rest2
        else some i
      | _ => some i
    else if b = 0xF0 then
      match rest with
      | b1 :: b2 :: b3 :: rest3 =>
        if decide (0x90 ≤ b1) && decide (b1 ≤ 0xBF) && contB b2 && contB b3 then
          utf8ErrAt (i + 4) rest3
        else some i
      | _ => some i
    else if 0xF1 ≤ b ∧ b ≤ 0xF3 then
      match rest with
      | b1 :: b2 :: b3 :: rest3 =>
        if contB b1 && contB b2 && contB b3 then utf8ErrAt (i + 4) rest3 else some i
      | _ => some i
    else if b = 0xF4 then
      match rest with
      | b1 :: b2 :: b3 :: rest3 =>
        if decide (0x80 ≤ b1) && decide (b1 ≤ 0x8F) && contB b2 && contB b3 then
          utf8ErrAt (i + 4) rest3
        else some i
      | _ => some i
    else some i

/-- Valid UTF-8: the validator finds no error. -/
def validUtf8 (bytes : List Nat) : Bool := (utf8ErrAt 0 bytes).isNone

/-- The BOM test of `decode_bytes_to_string`:
`data.len() >= 3 && data[0] == 0xEF && data[1] == 0xBB && data[2] == 0xBF`. -/
def hasUtf8Bom (data : List Nat) : Bool :=
  match data with
  | a :: b :: c :: _ => a == 0xEF && b == 0xBB && c == 0xBF
  | _ => false

/-- The bytes passed on to UTF-8 validation after optional BOM strip. -/
def stripBom (data : List Nat) : List Nat :=
  if hasUtf8Bom data then data.drop 3 else data

/-- `decode_bytes_to_string`: a Rust `&str` is its validated bytes, so
the decoded text is modelled by the byte list that survived validation. -/
def decode_bytes_to_string (data : List Nat) : Except PyErr (List Nat) :=
  match utf8ErrAt 0 (stripBom data) with
  | none => .ok (stripBom data)
  | some i =>
    .error (.encodingError
      ("Failed to decode bytes as UTF-8: invalid utf-8 sequence from index " ++ toString i))

end RusticSoup
namespace RusticSoup



/-- The two fixed selector literals of `bulk_parser.rs` compile to the
stated values, so `parse_google_page_internal` reduces to a sentinel
gate over a document-wide row enumeration. -/
theorem google_page_eq (doc : List Node) :
    parse_google_page_internal doc =
      if (selectNodes doc sentinelSel).head?.isNone then []
      else (selectNodes doc rowSel).map parse_single_ad := by
  have h1 : cssParse "#sh-osd__online-sellers-cont" = some sentinelSel := by decide
  have h2 : cssParse "tr[data-is-grid-offer=\"true\"]" = some rowSel := by decide
  simp only [parse_google_page_internal, h1, h2]

/-- When the sentinel matches, the parser maps over all rows. -/
theorem google_present_eq (doc : List Node)
    (h : (selectNodes doc sentinelSel).isEmpty = false) :
    parse_google_page_internal doc = (selectNodes doc rowSel).map parse_single_ad := by
  rw [google_page_eq]
  cases hs : selectNodes doc sentinelSel with
  | nil => rw [hs] at h; simp [List.isEmpty] at h
  | cons a t => simp [hs]

/-- Claim C9: on a document where the sentinel container
`#sh-osd__online-sellers-cont` does not match, the ad-row extractor
returns an empty sequence and never raises an error (the function is
total; absence of the sentinel is a normal outcome). -/
theorem no_sentinel_empty_result (doc : List Node) (h : (selectNodes doc sentinelSel).isEmpty = true) :
    parse_google_page_internal doc = [] := by
  rw [google_page_eq]
  cases hs : selectNodes doc sentinelSel with
  | nil => simp
  | cons a t => rw [hs] at h; simp [List.isEmpty] at h

/-- Claim C10: when the sentinel container matches somewhere, rows
matching `tr[data-is-grid-offer="true"]` are enumerated over the ENTIRE
document in document order, not only within the sentinel subtree: the
sentinel is a presence gate, not a scope. -/
theorem sentinel_gates_document_wide_rows (doc : List Node) (h : (selectNodes doc sentinelSel).isEmpty = false) :
    parse_google_page_internal doc = (selectNodes doc rowSel).map parse_single_ad :=
  google_present_eq doc h

/-- Claim C8: every record produced by the ad-row extractor carries
`type = "Online"` exactly when its `total_price` is non-empty and
`"Local"` when it is empty; `type` is derived from the extracted
shipping value, never independently extracted. -/
theorem ad_type_derived_from_total_price (doc : List Node) (r : Rec) (h : r ∈ parse_google_page_internal doc) :
    ∃ s p t l, r =
      [("seller_name", s), ("offer_price", p), ("total_price", t), ("link", l),
       ("type", if t = "" then "Local" else "Online")] := by
  rw [google_page_eq] at h
  by_cases hs : (selectNodes doc sentinelSel).head?.isNone
  · simp [hs] at h
  · simp [hs] at h
    obtain ⟨row, _, hrec⟩ := h
    exact ⟨extract_seller_name row, extract_price row, extract_shipping row, extract_link row,
      by rw [← hrec]; rfl⟩

/-- Claim C6 (amended): the four field extractions are total (an
absent match yields the empty string, not a failure), so no candidate
row is ever skipped: when the sentinel is present the extractor returns
exactly one record per matching row and the whole call succeeds. -/
theorem ad_rows_never_skipped (doc : List Node) (h : (selectNodes doc sentinelSel).isEmpty = false) :
    (parse_google_page_internal doc).length = (selectNodes doc rowSel).length ∧
    ∀ row ∈ selectNodes doc rowSel, parse_single_ad row ∈ parse_google_page_internal doc := by
  rw [google_present_eq doc h]
  exact ⟨by simp, fun row hrow => List.mem_map_of_mem _ hrow⟩

/-- Claim C6 counterexample: a row in which all four field
extractions find nothing (seller, price, shipping and link all come
back empty) is NOT skipped: it still yields a record, refuting the
claim that a row with a failed extraction is omitted. -/
theorem ad_row_not_skipped_cex :
    parse_google_page_internal
      [Node.elem "div" [("id", "sh-osd__online-sellers-cont")] [],
       Node.elem "tr" [("data-is-grid-offer", "true")] []] =
    [[("seller_name", ""), ("offer_price", ""), ("total_price", ""), ("link", ""),
      ("type", "Local")]] := by decide

theorem no_sentinel_empty_result_witness : parse_google_page_internal [Node.text "no offers here"] = [] :=
  no_sentinel_empty_result [Node.text "no offers here"] (by decide)

theorem sentinel_gates_document_wide_rows_witness :
    parse_google_page_internal
      [Node.elem "div" [("id", "sh-osd__online-sellers-cont")] [],
       Node.elem "table" []
         [Node.elem "tr" [("data-is-grid-offer", "true")]
            [Node.elem "a" [("class", "b5ycib"), ("href", "/s")] [Node.text "ShopA"]]]] =
      (selectNodes
        [Node.elem "div" [("id", "sh-osd__online-sellers-cont")] [],
         Node.elem "table" []
           [Node.elem "tr" [("data-is-grid-offer", "true")]
              [Node.elem "a" [("class", "b5ycib"), ("href", "/s")] [Node.text "ShopA"]]]]
        rowSel).map parse_single_ad :=
  sentinel_gates_document_wide_rows _ (by decide)

theorem ad_type_derived_from_total_price_witness :
    ∃ s p t l,
      ([("seller_name", "ShopA"), ("offer_price", "$9.99"), ("total_price", "$5 shipping"),
        ("link", "https://www.google.com/url?q=http://a.com"), ("type", "Online")] : Rec) =
      [("seller_name", s), ("offer_price", p), ("total_price", t), ("link", l),
       ("type", if t = "" then "Local" else "Online")] :=
  ad_type_derived_from_total_price
    [Node.elem "div" [("id", "sh-osd__online-sellers-cont")] [],
     Node.elem "tr" [("data-is-grid-offer", "true")]
       [Node.elem "a" [("class", "b5ycib"), ("href", "/x")]
          [Node.text "ShopA", Node.elem "span" [] [Node.text "Opens in a new window"]],
        Node.elem "span" [("class", "g9WBQb")] [Node.text " $9.99 "],
        Node.elem "div" [("class", "drzWO")] [Node.text "$5 shipping"],
        Node.elem "a" [("class", "UxuaJe"), ("href", "/url?q=http://a.com")] []]]
    _ (by decide)

theorem ad_rows_never_skipped_witness :
    (parse_google_page_internal
        [Node.elem "div" [("id", "sh-osd__online-sellers-cont")] [],
         Node.elem "tr" [("data-is-grid-offer", "true")] [],
         Node.elem "tr" [("data-is-grid-offer", "true")] []]).length =
      (selectNodes
        [Node.elem "div" [("id", "sh-osd__online-sellers-cont")] [],
         Node.elem "tr" [("data-is-grid-offer", "true")] [],
         Node.elem "tr" [("data-is-grid-offer", "true")] []] rowSel).length :=
  (ad_rows_never_skipped _ (by decide)).1




/-- Claim C7: `decode_bytes_to_string` strips a leading 3-byte UTF-8
BOM exactly when all three bytes are present at the start; the
remaining bytes are returned exactly when they are valid UTF-8, and
otherwise the call fails with an `EncodingError` carrying the decode
diagnostic (the index of the first invalid sequence). -/
theorem decode_bytes_spec (data : List Nat) :
    (hasUtf8Bom data = true ↔ 3 ≤ data.length ∧ data.take 3 = [0xEF, 0xBB, 0xBF]) ∧
    (∀ s, decode_bytes_to_string data = .ok s ↔
      (validUtf8 (stripBom data) = true ∧ s = stripBom data)) ∧
    (validUtf8 (stripBom data) = false →
      ∃ i, utf8ErrAt 0 (stripBom data) = some i ∧
        decode_bytes_to_string data = .error (.encodingError
          ("Failed to decode bytes as UTF-8: invalid utf-8 sequence from index " ++ toString i))) := by
  refine ⟨?_, ?_, ?_⟩
  · match data with
    | [] => simp [hasUtf8Bom]
    | [a] => simp [hasUtf8Bom]
    | [a, b] => simp [hasUtf8Bom]
    | a :: b :: c :: rest =>
      simp [hasUtf8Bom, List.take]
      omega
  · intro s
    unfold decode_bytes_to_string validUtf8
    cases h : utf8ErrAt 0 (stripBom data) with
    | none => simp [h]; exact comm
    | some i => simp [h]
  · intro h
    unfold validUtf8 at h
    cases he : utf8ErrAt 0 (stripBom data) with
    | none => rw [he] at h; simp at h
    | some i =>
      refine ⟨i, rfl, ?_⟩
      unfold decode_bytes_to_string
      rw [he]

theorem decode_bytes_spec_witness :
    decode_bytes_to_string [0xEF, 0xBB, 0xBF, 0x41] = .ok [0x41] ∧
    (∃ i, utf8ErrAt 0 (stripBom [0x41, 0xFF]) = some i ∧
      decode_bytes_to_string [0x41, 0xFF] = .error (.encodingError
        ("Failed to decode bytes as UTF-8: invalid utf-8 sequence from index " ++ toString i))) :=
  ⟨((decode_bytes_spec [0xEF, 0xBB, 0xBF, 0x41]).2.1 [0x41]).mpr (by decide),
   (decode_bytes_spec [0x41, 0xFF]).2.2 (by decide)⟩




theorem splitOnChar_ne_nil (c : Char) (l : List Char) : splitOnChar c l ≠ [] := by
  induction l with
  | nil => simp [splitOnChar]
  | cons x xs ih =>
    simp only [splitOnChar]
    by_cases h : x = c
    · simp [h]
    · simp only [h, if_false]
      cases hs : splitOnChar c xs with
      | nil => simp
      | cons g gs => simp

theorem splitOnChar_length (c : Char) (l : List Char) :
    (splitOnChar c l).length = l.count c + 1 := by
  induction l with
  | nil => simp [splitOnChar]
  | cons x xs ih =>
    by_cases h : x = c
    · subst h
      simp [splitOnChar, ih, List.count_cons]
    · cases hs : splitOnChar c xs with
      | nil => exact absurd hs (splitOnChar_ne_nil c xs)
      | cons g gs =>
        rw [hs] at ih
        simp only [splitOnChar, h, if_false, hs]
        simp only [List.length_cons] at ih ⊢
        simp [List.count_cons, h, ih]

theorem parse_spec_isSome_of_mem (sp : String) (hm : '@' ∈ sp.toList) :
    (parse_selector_spec sp).isSome = true ↔ (splitOnChar '@' sp.toList).length = 2 := by
  unfold parse_selector_spec
  simp only [hm, if_true]
  cases hs : splitOnChar '@' sp.toList with
  | nil => exact absurd hs (splitOnChar_ne_nil _ _)
  | cons g gs =>
    cases gs with
    | nil => simp
    | cons g2 gs2 =>
      cases gs2 with
      | nil => simp
      | cons g3 gs3 => simp

theorem parse_spec_isSome_iff (sp : String) :
    (parse_selector_spec sp).isSome = true ↔ sp.toList.count '@' ≤ 1 := by
  by_cases hm : '@' ∈ sp.toList
  · rw [parse_spec_isSome_of_mem sp hm, splitOnChar_length]
    have hpos : 0 < sp.toList.count '@' := List.count_pos_iff.mpr hm
    omega
  · have hz : sp.toList.count '@' = 0 := by
      by_contra hc
      exact hm (List.count_pos_iff.mp (Nat.pos_of_ne_zero hc))
    have hm2 : ¬ ('@' ∈ sp.data) := hm
    have hz2 : sp.data.count '@' = 0 := hz
    unfold parse_selector_spec
    simp [hm, hm2, hz, hz2]



theorem specSel_parse_none {sp : String} (hp : parse_selector_spec sp = none) :
    specSel sp = none := by
  unfold specSel
  rw [hp]

theorem specSel_eq {sp s : String} {a : Option String}
    (hp : parse_selector_spec sp = some (s, a)) :
    specSel sp =
      (match cssParse s with
       | none => none
       | some sel => some (sel, a)) := by
  unfold specSel
  rw [hp]

theorem wf_specSel {sp : String}
    (h1 : sp.toList.count '@' <= 1)
    (h2 : (parse_selector_spec sp).all (fun q => (cssParse q.1).isSome) = true) :
    (specSel sp).isSome = true := by
  have hps := (parse_spec_isSome_iff sp).mpr h1
  cases hp : parse_selector_spec sp with
  | none => rw [hp] at hps; simp at hps
  | some q =>
    obtain ⟨s, a⟩ := q
    rw [hp] at h2
    simp only [Option.all_some] at h2
    obtain ⟨sel, hsel⟩ := Option.isSome_iff_exists.mp h2
    rw [specSel_eq hp, hsel]
    rfl

theorem compileFields_wf : ∀ fm : List (String × String),
    (∀ p ∈ fm, (specSel p.2).isSome = true) →
    compileFields fm = .ok (fm.map (fun p => (p.1, (specSel p.2).getD ([], none)))) := by
  intro fm
  induction fm with
  | nil => intro _; rfl
  | cons q rest ih =>
    intro h
    have hq := h q (by simp)
    have hrest := ih (fun p hp => h p (by simp [hp]))
    obtain ⟨n, sp⟩ := q
    simp only at hq
    cases hp : parse_selector_spec sp with
    | none => rw [specSel_parse_none hp] at hq; simp at hq
    | some r =>
      obtain ⟨s, a⟩ := r
      cases hc : cssParse s with
      | none => rw [specSel_eq hp, hc] at hq; simp at hq
      | some sel =>
        have hspec : specSel sp = some (sel, a) := by rw [specSel_eq hp, hc]
        simp only [compileFields, hp, hc, hrest, hspec, List.map_cons, Option.getD_some]

theorem compileFields_ok_silent : ∀ (fm : List (String × String)) l,
    compileFields fm = .ok l → compileFieldsSilent fm = l := by
  intro fm
  induction fm with
  | nil =>
    intro l h
    simp only [compileFields, Except.ok.injEq] at h
    simp only [compileFieldsSilent, h]
  | cons q rest ih =>
    intro l h
    obtain ⟨n, sp⟩ := q
    cases hp : parse_selector_spec sp with
    | none =>
      simp only [compileFields, hp] at h
      simp only [compileFieldsSilent, hp]
      exact ih l h
    | some r =>
      obtain ⟨s, a⟩ := r
      cases hc : cssParse s with
      | none =>
        simp only [compileFields, hp, hc] at h
        exact Except.noConfusion h
      | some sel =>
        simp only [compileFields, hp, hc] at h
        cases hr : compileFields rest with
        | error e => rw [hr] at h; simp at h
        | ok l2 =>
          rw [hr] at h
          simp only [Except.ok.injEq] at h
          simp only [compileFieldsSilent, hp, hc, ih l2 hr, ← h]

theorem compileFields_error : ∀ (fm : List (String × String)) e,
    compileFields fm = .error e →
    ∃ n sp s a, (n, sp) ∈ fm ∧ parse_selector_spec sp = some (s, a) ∧ cssParse s = none ∧
      e = .valueError ("Invalid selector '" ++ s ++ "' for field '" ++ n ++ "'") := by
  intro fm
  induction fm with
  | nil => intro e h; simp [compileFields] at h
  | cons q rest ih =>
    intro e h
    obtain ⟨n, sp⟩ := q
    cases hp : parse_selector_spec sp with
    | none =>
      simp only [compileFields, hp] at h
      obtain ⟨n2, sp2, s2, a2, hmem, h1, h2, h3⟩ := ih e h
      exact ⟨n2, sp2, s2, a2, by simp [hmem], h1, h2, h3⟩
    | some r =>
      obtain ⟨s, a⟩ := r
      cases hc : cssParse s with
      | none =>
        simp only [compileFields, hp, hc, Except.error.injEq] at h
        exact ⟨n, sp, s, a, by simp, hp, hc, h.symm⟩
      | some sel =>
        simp only [compileFields, hp, hc] at h
        cases hr : compileFields rest with
        | error e2 =>
          rw [hr] at h
          simp only [Except.error.injEq] at h
          obtain ⟨n2, sp2, s2, a2, hmem, h1, h2, h3⟩ := ih e2 hr
          exact ⟨n2, sp2, s2, a2, by simp [hmem], h1, h2, h ▸ h3⟩
        | ok l2 => rw [hr] at h; simp at h

/-- When the pre-compilation loop succeeds, every field whose spec
parsed had a compilable CSS selector: an uncompilable one would have
aborted the loop. -/
theorem compileFields_ok_all : ∀ (fm : List (String × String)) l,
    compileFields fm = .ok l →
    ∀ n sp s a, (n, sp) ∈ fm → parse_selector_spec sp = some (s, a) →
      (cssParse s).isSome = true := by
  intro fm
  induction fm with
  | nil => intro l _ n sp s a hmem; simp at hmem
  | cons q rest ih =>
    intro l h n sp s a hmem hp
    obtain ⟨n2, sp2⟩ := q
    rcases List.mem_cons.mp hmem with hhead | htail
    · cases hhead
      cases hc : cssParse s with
      | none =>
        simp only [compileFields, hp, hc] at h
        exact Except.noConfusion h
      | some sel => simp [hc]
    · cases hp2 : parse_selector_spec sp2 with
      | none =>
        simp only [compileFields, hp2] at h
        exact ih l h n sp s a htail hp
      | some r =>
        obtain ⟨s2, a2⟩ := r
        cases hc2 : cssParse s2 with
        | none =>
          simp only [compileFields, hp2, hc2] at h
          exact Except.noConfusion h
        | some sel2 =>
          simp only [compileFields, hp2, hc2] at h
          cases hr : compileFields rest with
          | error e2 => rw [hr] at h; exact Except.noConfusion h
          | ok l2 => exact ih l2 hr n sp s a htail hp

theorem extractValue_of_no_match (c : Node) (sel : Sel) (a : Option String)
    (h : selectNodes [c] sel = []) : extractValue c sel a = "" := by
  unfold extractValue
  rw [h]
  rfl

/-- Claim C1: for a well-formed field mapping (each spec has at most
one `@` and its selector half compiles), every record returned by
`extract_data` has exactly the keys of the field mapping, and a field
whose selector matches nothing in the record's container is present
with the empty string as its value. -/
theorem extract_data_record_schema (doc : List Node) (cs : String) (fm : List (String × String))
    (hwf : ∀ p ∈ fm, p.2.toList.count '@' ≤ 1 ∧
      (parse_selector_spec p.2).all (fun q => (cssParse q.1).isSome) = true)
    (recs : List Rec) (hok : extract_data doc cs fm = .ok recs) :
    ∀ r ∈ recs,
      r.map Prod.fst = fm.map Prod.fst ∧
      ∃ csel c, cssParse cs = some csel ∧ c ∈ selectNodes doc csel ∧
        ∀ n sp sel a, (n, sp) ∈ fm → specSel sp = some (sel, a) →
          selectNodes [c] sel = [] → (n, "") ∈ r := by
  have hw : ∀ p ∈ fm, (specSel p.2).isSome = true :=
    fun p hp => wf_specSel (hwf p hp).1 (hwf p hp).2
  cases hcs : cssParse cs with
  | none =>
    unfold extract_data at hok
    rw [hcs] at hok
    exact Except.noConfusion hok
  | some csel =>
    unfold extract_data at hok
    rw [hcs, compileFields_wf fm hw] at hok
    simp only [Except.ok.injEq] at hok
    intro r hr
    rw [← hok] at hr
    simp only [List.mem_map] at hr
    obtain ⟨c, hc, hrc⟩ := hr
    constructor
    · rw [← hrc]
      simp [List.map_map, Function.comp]
    · refine ⟨csel, c, rfl, hc, ?_⟩
      intro n sp sel a hmem hspec hnone
      rw [← hrc]
      have : ((n, sp).1, extractValue c ((specSel (n, sp).2).getD ([], none)).1
          ((specSel (n, sp).2).getD ([], none)).2) ∈
          (fm.map (fun p => (p.1, (specSel p.2).getD ([], none)))).map
            (fun f => (f.1, extractValue c f.2.1 f.2.2)) := by
        rw [List.map_map]
        exact List.mem_map_of_mem _ hmem
      simpa [hspec, extractValue_of_no_match c sel a hnone] using this

theorem extract_data_record_schema_witness :
    ([("a", "hi"), ("b", "")] : Rec).map Prod.fst =
      ([("a", "span"), ("b", "p")] : List (String × String)).map Prod.fst ∧
    ∃ csel c, cssParse "div" = some csel ∧
      c ∈ selectNodes [Node.elem "div" [] [Node.elem "span" [] [Node.text "hi"]]] csel ∧
      ∀ n sp sel a, (n, sp) ∈ ([("a", "span"), ("b", "p")] : List (String × String)) →
        specSel sp = some (sel, a) → selectNodes [c] sel = [] →
        (n, "") ∈ ([("a", "hi"), ("b", "")] : Rec) :=
  extract_data_record_schema [Node.elem "div" [] [Node.elem "span" [] [Node.text "hi"]]] "div"
    [("a", "span"), ("b", "p")] (by decide) [[("a", "hi"), ("b", "")]] (by decide)
    [("a", "hi"), ("b", "")] (by decide)



/-- Whenever the public single-document extractor succeeds, the
internal bulk per-page function computes the same record list. -/
theorem extract_data_ok_single (doc : List Node) (cs : String)
    (fm : List (String × String)) (r : List Rec)
    (h : extract_data doc cs fm = .ok r) : extract_single_page doc cs fm = r := by
  cases hcs : cssParse cs with
  | none =>
    unfold extract_data at h
    rw [hcs] at h
    exact Except.noConfusion h
  | some csel =>
    unfold extract_data at h
    rw [hcs] at h
    cases hcf : compileFields fm with
    | error e => rw [hcf] at h; exact Except.noConfusion h
    | ok compiled =>
      rw [hcf] at h
      simp only [Except.ok.injEq] at h
      unfold extract_single_page
      simp only [hcs]
      rw [compileFields_ok_silent fm compiled hcf]
      exact h

/-- Claim C2 (amended): `extract_data_bulk` returns one result per
input page, and whenever `extract_data` succeeds on page `i` the `i`-th
bulk result equals its value.  (The unamended claim fails when
`extract_data` errors: the bulk path swallows selector errors.) -/
theorem extract_bulk_refines_extract_data (pages : List (List Node)) (cs : String) (fm : List (String × String)) :
    (extract_data_bulk pages cs fm).length = pages.length ∧
    ∀ (i : Nat) (h : i < pages.length) (r : List Rec),
      extract_data pages[i] cs fm = .ok r →
      (extract_data_bulk pages cs fm)[i]? = some r := by
  constructor
  · exact List.length_map pages _
  · intro i h r hok
    unfold extract_data_bulk
    rw [List.getElem?_map, List.getElem?_eq_getElem h]
    show some (extract_single_page pages[i] cs fm) = some r
    rw [extract_data_ok_single pages[i] cs fm r hok]

/-- Claim C2 counterexample: on an invalid container selector the
single-document entry point fails while the bulk path succeeds with an
empty per-page result, so the i-th bulk result cannot equal "the result
of extract_data" for that page. -/
theorem extract_bulk_single_divergence :
    extract_data ([] : List Node) "" [] = .error (.valueError "Invalid container selector: ") ∧
    extract_data_bulk [([] : List Node)] "" [] = [[]] := by decide

theorem extract_bulk_refines_extract_data_witness :
    (extract_data_bulk [[Node.elem "div" [] [Node.text "t"]]] "div" [("x", "span")]).length = 1 ∧
    (extract_data_bulk [[Node.elem "div" [] [Node.text "t"]]] "div" [("x", "span")])[0]? =
      some [[("x", "")]] :=
  ⟨(extract_bulk_refines_extract_data [[Node.elem "div" [] [Node.text "t"]]] "div" [("x", "span")]).1,
   (extract_bulk_refines_extract_data [[Node.elem "div" [] [Node.text "t"]]] "div" [("x", "span")]).2 0 (by decide)
     [[("x", "")]] (by decide)⟩

/-- Claim C3 (amended): `extract_data` fails on an invalid container
selector, and it also fails when any field spec's selector half fails
to compile; every error it returns is a `ValueError` (not a
`SelectorError`) whose message names the offending selector text and,
for a field selector, the field it belongs to. -/
theorem extract_data_error_message_shape (doc : List Node) (cs : String) (fm : List (String × String)) :
    (cssParse cs = none →
      extract_data doc cs fm = .error (.valueError ("Invalid container selector: " ++ cs))) ∧
    (∀ n sp s a, (n, sp) ∈ fm → parse_selector_spec sp = some (s, a) → cssParse s = none →
      ∃ e, extract_data doc cs fm = .error e) ∧
    (∀ e, extract_data doc cs fm = .error e →
      (e = .valueError ("Invalid container selector: " ++ cs) ∧ cssParse cs = none) ∨
      ∃ n sp s a, (n, sp) ∈ fm ∧ parse_selector_spec sp = some (s, a) ∧ cssParse s = none ∧
        e = .valueError ("Invalid selector '" ++ s ++ "' for field '" ++ n ++ "'")) := by
  refine ⟨?_, ?_, ?_⟩
  · intro h
    unfold extract_data
    rw [h]
  · intro n sp s a hmem hp hc
    cases hcs : cssParse cs with
    | none =>
      refine ⟨.valueError ("Invalid container selector: " ++ cs), ?_⟩
      unfold extract_data
      rw [hcs]
    | some csel =>
      cases hcf : compileFields fm with
      | error e =>
        refine ⟨e, ?_⟩
        unfold extract_data
        rw [hcs, hcf]
      | ok compiled =>
        have hall := compileFields_ok_all fm compiled hcf n sp s a hmem hp
        rw [hc] at hall
        exact absurd hall (by simp)
  · intro e h
    cases hcs : cssParse cs with
    | none =>
      unfold extract_data at h
      rw [hcs] at h
      simp only [Except.error.injEq] at h
      exact Or.inl ⟨h.symm, rfl⟩
    | some csel =>
      unfold extract_data at h
      rw [hcs] at h
      cases hcf : compileFields fm with
      | error e2 =>
        rw [hcf] at h
        simp only [Except.error.injEq] at h
        exact Or.inr (h ▸ compileFields_error fm e2 hcf)
      | ok compiled => rw [hcf] at h; exact Except.noConfusion h

/-- Claim C3 counterexample: an invalid container selector makes
`extract_data` fail with `PyErr.valueError`, not with the
`SelectorError` kind the claim states. -/
theorem extract_data_invalid_selector_value_error :
    extract_data ([] : List Node) "p[" [] =
      .error (.valueError "Invalid container selector: p[") := by decide

theorem extract_data_error_message_shape_witness :
    extract_data ([] : List Node) "div," [] =
      .error (.valueError "Invalid container selector: div,") ∧
    ∃ e, extract_data [Node.elem "div" [] []] "div" [("f", "a[")] = .error e :=
  ⟨(extract_data_error_message_shape ([] : List Node) "div," []).1 (by decide),
   (extract_data_error_message_shape [Node.elem "div" [] []] "div" [("f", "a[")]).2.1
     "f" "a[" "a[" none (by decide) (by decide) (by decide)⟩



theorem compileFields_skip (n sp : String) (hn : parse_selector_spec sp = none) :
    ∀ fm1 fm2, compileFields (fm1 ++ (n, sp) :: fm2) = compileFields (fm1 ++ fm2) := by
  intro fm1
  induction fm1 with
  | nil => intro fm2; simp only [List.nil_append, compileFields, hn]
  | cons q rest ih =>
    intro fm2
    obtain ⟨n2, sp2⟩ := q
    simp only [List.cons_append, compileFields, List.append_eq, ih fm2]

theorem compileFieldsSilent_skip (n sp : String) (hn : parse_selector_spec sp = none) :
    ∀ fm1 fm2, compileFieldsSilent (fm1 ++ (n, sp) :: fm2) = compileFieldsSilent (fm1 ++ fm2) := by
  intro fm1
  induction fm1 with
  | nil => intro fm2; simp only [List.nil_append, compileFieldsSilent, hn]
  | cons q rest ih =>
    intro fm2
    obtain ⟨n2, sp2⟩ := q
    simp only [List.cons_append, compileFieldsSilent, List.append_eq, ih fm2]

/-- Claim C4 (amended): a field spec with more than one `@` is
silently skipped in BOTH the internal bulk path and the public
`extract_data` entry point; neither surfaces an error for it. -/
theorem malformed_spec_skipped_both_paths (doc : List Node) (cs : String) (fm1 fm2 : List (String × String))
    (n sp : String) (h : 2 ≤ sp.toList.count '@') :
    extract_data doc cs (fm1 ++ (n, sp) :: fm2) = extract_data doc cs (fm1 ++ fm2) ∧
    extract_single_page doc cs (fm1 ++ (n, sp) :: fm2) =
      extract_single_page doc cs (fm1 ++ fm2) := by
  have hn : parse_selector_spec sp = none := by
    cases hp : parse_selector_spec sp with
    | none => rfl
    | some q =>
      have h2 := (parse_spec_isSome_iff sp).mp (by rw [hp]; rfl)
      omega
  constructor
  · unfold extract_data
    rw [compileFields_skip n sp hn fm1 fm2]
  · unfold extract_single_page
    rw [compileFieldsSilent_skip n sp hn fm1 fm2]

/-- Claim C4 counterexample: `extract_data` with the lone field spec
`a@b@c` (two `@`) succeeds with a record lacking the field, rather than
failing the call as the claim states. -/
theorem malformed_spec_no_error :
    extract_data [Node.elem "div" [] []] "div" [("f", "a@b@c")] = .ok [[]] := by decide

theorem malformed_spec_skipped_both_paths_witness :
    extract_data [Node.elem "p" [] []] "p" [("f", "x@y@z"), ("g", "b")] =
      extract_data [Node.elem "p" [] []] "p" [("g", "b")] :=
  (malformed_spec_skipped_both_paths [Node.elem "p" [] []] "p" [] [("g", "b")] "f" "x@y@z" (by decide)).1

/-- Claim C5 (amended): `extract_data_bulk` cannot fail: it always
returns one (possibly empty) result list per page, and an uncompilable
container selector yields an empty result for every page rather than a
batch failure. -/
theorem extract_bulk_total (pages : List (List Node)) (cs : String) (fm : List (String × String)) :
    (extract_data_bulk pages cs fm).length = pages.length ∧
    (cssParse cs = none →
      extract_data_bulk pages cs fm = pages.map (fun _ => ([] : List Rec))) := by
  constructor
  · exact List.length_map pages _
  · intro h
    unfold extract_data_bulk extract_single_page
    simp only [h]

/-- Claim C5 counterexample: a container selector that cannot
compile does NOT fail the batch call: `extract_data_bulk` succeeds,
returning an empty record list for each page. -/
theorem bulk_no_failure_on_bad_selector :
    cssParse "@" = none ∧
    extract_data_bulk [[Node.text "x"], ([] : List Node)] "@" [("f", "tr")] = [[], []] := by
  decide

theorem extract_bulk_total_witness :
    (extract_data_bulk [[Node.text "y"]] "##" [("f", "a")]).length = 1 ∧
    extract_data_bulk [[Node.text "y"]] "##" [("f", "a")] = [[]] :=
  ⟨(extract_bulk_total [[Node.text "y"]] "##" [("f", "a")]).1,
   (extract_bulk_total [[Node.text "y"]] "##" [("f", "a")]).2 (by decide)⟩


end RusticSoup
